import Mathlib

/-!
Verification of the PDF table-extraction core of the estimator backend
(`pdf_parser.py`): `extract_tables_from_pdf`, `parse_door_schedule`,
`extract_structured_takeoff`, together with the spec's division/keyword
classifier.

Strings are modelled as `List Char`; documents as a list of per-page text
blobs. Text under consideration is the ASCII-plus-typographic-quote alphabet
the parser is concerned with, so Python's `str.isdigit`, `str.strip`,
`str.lower` are modelled by their ASCII behaviour.
-/

namespace PdfParser

/-- ASCII apostrophe, the straight foot mark. -/
def sq : Char := Char.ofNat 39

/-- ASCII double quote, the straight inch mark. -/
def dq : Char := Char.ofNat 34

/-- Typographic right single quote (U+2019), the curly foot mark. -/
def rq : Char := Char.ofNat 8217

/-- Typographic right double quote (U+201D), the curly inch mark. -/
def rdq : Char := Char.ofNat 8221

/-- Multiplication sign (U+00D7), one of the separators of the second size pattern. -/
def xmul : Char := Char.ofNat 215

/-- Python whitespace for `str.strip` / `str.split` / regex `\s` (ASCII range). -/
def pyIsSpace (c : Char) : Bool :=
  c = ' ' || c = '\t' || c = '\n' || c = '\r' || c = Char.ofNat 11 || c = Char.ofNat 12

/-- Python `str.strip()`: drop leading and trailing whitespace. -/
def pyStrip (s : List Char) : List Char :=
  ((s.dropWhile pyIsSpace).reverse.dropWhile pyIsSpace).reverse

/-- Worker for `pySplit`; `acc` is the current token, reversed. -/
def pySplitAux : List Char → List Char → List (List Char)
  | [], [] => []
  | [], acc => [acc.reverse]
  | c :: rest, acc =>
    if pyIsSpace c then
      match acc with
      | [] => pySplitAux rest []
      | _ :: _ => acc.reverse :: pySplitAux rest []
    else
      pySplitAux rest (c :: acc)

/-- Python `str.split()` with no argument: split on whitespace runs, no empty tokens. -/
def pySplit (s : List Char) : List (List Char) :=
  pySplitAux s []

/-- Whether a list of characters starts with a whitespace character. -/
def wsHead : List Char → Bool
  | [] => false
  | d :: _ => pyIsSpace d

/-- Worker for `reSplitWs`; `acc` is the current token (reversed) and `skip`
records that we are inside a separator whitespace run.  A separator is a
maximal whitespace run of length at least 2 (the greedy branch `\s{2,}`,
entered when a whitespace character is followed by another) or, failing
that, a single tab (the branch `\t+`). -/
def reSplitWsAux : List Char → Bool → List Char → List (List Char)
  | [], _, acc => [acc.reverse]
  | c :: rest, skip, acc =>
    if skip then
      if pyIsSpace c then reSplitWsAux rest true []
      else reSplitWsAux rest false [c]
    else if pyIsSpace c && wsHead rest then
      acc.reverse :: reSplitWsAux rest true []
    else if c = '\t' then
      acc.reverse :: reSplitWsAux rest false []
    else
      reSplitWsAux rest false (c :: acc)

/-- Python `re.split` with pattern `\s{2,}|\t+` (line 32 of `pdf_parser.py`). -/
def reSplitWs (s : List Char) : List (List Char) :=
  reSplitWsAux s false []

/-- Python `str.isdigit()` on ASCII text: nonempty and all decimal digits. -/
def pyIsDigit (s : List Char) : Bool :=
  !s.isEmpty && s.all Char.isDigit

/-- Python `int(...)` on a digit-only token: its base-10 value. -/
def digitsToNat (s : List Char) : Nat :=
  s.foldl (fun a c => 10 * a + (c.toNat - 48)) 0

/-- Python `str.lower()` on ASCII text. -/
def toLowerStr (s : List Char) : List Char :=
  s.map Char.toLower

/-- Python's `in` on strings: substring containment, as a Bool. -/
def containsSub (needle hay : List Char) : Bool :=
  decide (List.IsInfix needle hay)

/-- Consume one literal character. -/
def eatLit (c : Char) : List Char → Option (List Char)
  | x :: rest => if x = c then some rest else none
  | [] => none

/-- Consume one character drawn from a character class. -/
def eatOneOf (cs : List Char) : List Char → Option (List Char)
  | x :: rest => if cs.contains x then some rest else none
  | [] => none

/-- Regex fragment `\d+'` of the first size pattern: one or more digits then the
straight foot mark. The quote is not a digit, so the greedy `\d+` consumes the
whole digit run with no backtracking. -/
def eatFeet1 (s : List Char) : Option (List Char) :=
  if (s.takeWhile Char.isDigit).isEmpty then none
  else eatLit sq (s.drop (s.takeWhile Char.isDigit).length)

/-- Regex fragment `\d{1,2}"` of the first size pattern: with backtracking,
it succeeds exactly when the digit run has length 1 or 2 and is followed by
the straight inch mark. -/
def eatInches1 (s : List Char) : Option (List Char) :=
  if (s.takeWhile Char.isDigit).length = 0 || 3 ≤ (s.takeWhile Char.isDigit).length then
    none
  else eatLit dq (s.drop (s.takeWhile Char.isDigit).length)

/-- Python `re.match` of the first size pattern of line 34 of `pdf_parser.py`,
`\d+'\d{1,2}\"x\d+'\d{1,2}\"` (a prefix match). -/
def matchSize1 (s : List Char) : Bool :=
  (do
    let s1 ← eatFeet1 s
    let s2 ← eatInches1 s1
    let s3 ← eatLit 'x' s2
    let s4 ← eatFeet1 s3
    let _ ← eatInches1 s4
    pure ()).isSome

/-- Regex fragment `\d[’']` of the second size pattern: exactly one digit then a
foot mark, straight or typographic. -/
def eatFeet2 : List Char → Option (List Char)
  | c :: rest => if c.isDigit then eatOneOf [rq, sq] rest else none
  | [] => none

/-- Regex fragment `\d{1,2}[”\"]?` of the second size pattern when followed by
the separator class `[xX×]`: the three classes are disjoint, so the digit run
must have length 1 or 2 and is consumed whole, then an optional inch mark. -/
def eatInches2 (s : List Char) : Option (List Char) :=
  if (s.takeWhile Char.isDigit).length = 0 || 3 ≤ (s.takeWhile Char.isDigit).length then
    none
  else
    match s.drop (s.takeWhile Char.isDigit).length with
    | c :: rest => if c = rdq || c = dq then some rest else some (c :: rest)
    | [] => some []

/-- Python `re.match` of the second size pattern of line 34 of `pdf_parser.py`,
`\d[’']\d{1,2}[”\"]?[xX×]\d[’']\d{1,2}[”\"]?` (a prefix match).  Its trailing
`\d{1,2}[”\"]?` needs only one digit, since a prefix match never looks past a
successful greedy consumption at the end of the pattern. -/
def matchSize2 (s : List Char) : Bool :=
  (do
    let s1 ← eatFeet2 s
    let s2 ← eatInches2 s1
    let s3 ← eatOneOf ['x', 'X', xmul] s2
    let s4 ← eatFeet2 s3
    match s4 with
    | c :: _ => if c.isDigit then some () else none
    | [] => none).isSome

/-- A candidate table: page number, header line, collected row lines
(`pdf_parser.py` lines 20-24). -/
structure CandidateTable where
  page : Nat
  header : List Char
  rows : List (List Char)
deriving DecidableEq

/-- The structured result of `parse_door_schedule`
(`pdf_parser.py` lines 41-46). -/
structure ScheduleResult where
  scope : List Char
  count : Nat
  sizes : List (List Char)
  source_page : Nat
deriving DecidableEq

/-- The inner loop of lines 33-35: keep, in order, every token matching either
size pattern. -/
def sizeTokens : List (List Char) → List (List Char)
  | [] => []
  | p :: rest =>
    if matchSize1 p || matchSize2 p then p :: sizeTokens rest else sizeTokens rest

/-- The inner loop of lines 36-39: the first digit-only token, if any
(the `break` stops the scan at the first hit). -/
def firstDigitToken : List (List Char) → Option (List Char)
  | [] => none
  | p :: rest => if pyIsDigit p then some p else firstDigitToken rest

/-- One iteration of the row loop of `parse_door_schedule` (lines 31-39):
split the stripped row (line 32), append the matching size tokens
(lines 33-35), add the first digit-only token to the count (lines 36-39). -/
def parseRowStep (acc : Nat × List (List Char)) (row : List Char) :
    Nat × List (List Char) :=
  let parts := reSplitWs (pyStrip row)
  let cnt := match firstDigitToken parts with
    | some p => acc.1 + digitsToNat p
    | none => acc.1
  (cnt, acc.2 ++ sizeTokens parts)

/-- `parse_door_schedule` (`pdf_parser.py` lines 28-46): fold over the rows,
accumulating the door count and the size tokens. -/
def parse_door_schedule (table : CandidateTable) : ScheduleResult :=
  let r := table.rows.foldl parseRowStep (0, [])
  { scope := "Doors".toList
    count := r.1
    sizes := r.2
    source_page := table.page }

/-- Python `str.split` on a single newline separator, keeping empty pieces. -/
def splitLines : List Char → List (List Char)
  | [] => [[]]
  | c :: rest =>
    if c = '\n' then [] :: splitLines rest
    else
      match splitLines rest with
      | l :: ls => (c :: l) :: ls
      | [] => [[c]]

/-- Line 12: `re.search(r"(Door|Type|Qty|Size|Material)", line, re.IGNORECASE)`,
a case-insensitive substring test against the five header tokens. -/
def isHeaderLine (line : List Char) : Bool :=
  containsSub (toLowerStr "Door".toList) (toLowerStr line) ||
  containsSub (toLowerStr "Type".toList) (toLowerStr line) ||
  containsSub (toLowerStr "Qty".toList) (toLowerStr line) ||
  containsSub (toLowerStr "Size".toList) (toLowerStr line) ||
  containsSub (toLowerStr "Material".toList) (toLowerStr line)

/-- Lines 14-18: collect consecutive lines after a header, stopping (without
consuming) at the first line that is blank after stripping or has fewer than
two whitespace-separated tokens. -/
def collectRows : List (List Char) → List (List Char)
  | [] => []
  | l :: rest =>
    if pyStrip l = [] ∨ (pySplit l).length < 2 then []
    else l :: collectRows rest

/-- Lines 11-24 for the lines of one page: each header line starts a table
whose rows are collected from the following lines of the same page. -/
def tablesOfLines (page : Nat) : List (List Char) → List CandidateTable
  | [] => []
  | l :: rest =>
    if isHeaderLine l then
      { page := page, header := l, rows := collectRows rest } :: tablesOfLines page rest
    else tablesOfLines page rest

/-- `extract_tables_from_pdf` (`pdf_parser.py` lines 4-25).  The document is
modelled as the list of per-page text blobs produced by the PDF library;
page numbers are 1-based (`page_num + 1`). -/
def extract_tables_from_pdf (doc : List (List Char)) : List CandidateTable :=
  (doc.enum.map (fun pg => tablesOfLines (pg.1 + 1) (splitLines pg.2))).flatten

/-- Line 53: `"door" in table["header"].lower()`. -/
def headerIsDoor (t : CandidateTable) : Bool :=
  containsSub "door".toList (toLowerStr t.header)

/-- Worker for `extract_structured_takeoff` (lines 52-55): keep the parse of
every table whose header mentions a door. -/
def takeoffOfTables : List CandidateTable → List ScheduleResult
  | [] => []
  | t :: rest =>
    if headerIsDoor t then parse_door_schedule t :: takeoffOfTables rest
    else takeoffOfTables rest

/-- `extract_structured_takeoff` (`pdf_parser.py` lines 49-57). -/
def extract_structured_takeoff (doc : List (List Char)) : List ScheduleResult :=
  takeoffOfTables (extract_tables_from_pdf doc)

/-- A scope-match record of the division/keyword classifier. -/
structure ScopeMatch where
  title : List Char
  matched : Bool
  keywords : List (List Char)
deriving DecidableEq

/-- Modelled from the spec: no function under `src/` implements the
division/keyword classifier (the shipped code delegates division
classification to the external LLM), so this follows the spec's words: given
a static catalog of category titles with lowercase keyword lists and the
document text, produce one record per category in catalog order, whose
`matched` is whether any keyword is a substring of the lowercased text. -/
def classifyScopes (catalog : List (List Char × List (List Char)))
    (text : List Char) : List ScopeMatch :=
  catalog.map (fun cat =>
    { title := cat.1
      matched := cat.2.any (fun kw => containsSub kw (toLowerStr text))
      keywords := cat.2 })

/-! ## The per-row reading of `parse_door_schedule`, used in the claims -/

/-- The contribution of one row to the door count: the value of its first
digit-only token, or 0 when the row has none. -/
def rowCount (row : List Char) : Nat :=
  match firstDigitToken (reSplitWs (pyStrip row)) with
  | some p => digitsToNat p
  | none => 0

/-- The size tokens contributed by one row, in token order. -/
def rowSizes (row : List Char) : List (List Char) :=
  sizeTokens (reSplitWs (pyStrip row))

/-- A collectible row line: non-empty after stripping and at least two
whitespace-separated tokens. -/
def goodRow (l : List Char) : Bool :=
  !(decide (pyStrip l = []) || decide ((pySplit l).length < 2))

/-! ## Characterization lemmas -/

theorem parseRowStep_eq (c : Nat) (s : List (List Char)) (row : List Char) :
    parseRowStep (c, s) row = (c + rowCount row, s ++ rowSizes row) := by
  cases h : firstDigitToken (reSplitWs (pyStrip row)) with
  | none => simp [parseRowStep, rowCount, rowSizes, h]
  | some p => simp [parseRowStep, rowCount, rowSizes, h]

theorem foldl_parseRowStep (rows : List (List Char)) :
    ∀ (c : Nat) (s : List (List Char)),
      rows.foldl parseRowStep (c, s) =
        (c + (rows.map rowCount).sum, s ++ (rows.map rowSizes).flatten) := by
  induction rows with
  | nil => intro c s; simp
  | cons r rows ih =>
    intro c s
    simp only [List.foldl_cons, parseRowStep_eq, ih, List.map_cons, List.sum_cons,
      List.flatten_cons, List.append_assoc]
    rw [Nat.add_assoc]

theorem parse_count_eq (t : CandidateTable) :
    (parse_door_schedule t).count = (t.rows.map rowCount).sum := by
  simp [parse_door_schedule, foldl_parseRowStep]

theorem parse_sizes_eq (t : CandidateTable) :
    (parse_door_schedule t).sizes = (t.rows.map rowSizes).flatten := by
  simp [parse_door_schedule, foldl_parseRowStep]

theorem parse_scope_eq (t : CandidateTable) :
    (parse_door_schedule t).scope = "Doors".toList := rfl

theorem parse_source_page_eq (t : CandidateTable) :
    (parse_door_schedule t).source_page = t.page := rfl

theorem sizeTokens_eq_filter (ps : List (List Char)) :
    sizeTokens ps = ps.filter (fun p => matchSize1 p || matchSize2 p) := by
  induction ps with
  | nil => rfl
  | cons p ps ih =>
    by_cases h : (matchSize1 p || matchSize2 p) = true
    · simp [sizeTokens, h, ih]
    · simp [sizeTokens, h, ih]

theorem firstDigitToken_eq_find (ps : List (List Char)) :
    firstDigitToken ps = ps.find? pyIsDigit := by
  induction ps with
  | nil => rfl
  | cons p ps ih =>
    by_cases h : pyIsDigit p = true
    · simp [firstDigitToken, List.find?_cons, h]
    · simp [firstDigitToken, List.find?_cons, h, ih]

theorem collectRows_eq_takeWhile (ls : List (List Char)) :
    collectRows ls = ls.takeWhile goodRow := by
  induction ls with
  | nil => rfl
  | cons l ls ih =>
    by_cases h : pyStrip l = [] ∨ (pySplit l).length < 2
    · have hg : goodRow l = false := by
        unfold goodRow
        rcases h with h | h
        · simp [h]
        · simp [h]
      simp [collectRows, h, List.takeWhile_cons, hg]
    · have hg : goodRow l = true := by
        unfold goodRow
        push_neg at h
        have h2 : ¬ (pySplit l).length < 2 := by omega
        simp [h.1, h2]
      simp [collectRows, h, List.takeWhile_cons, hg, ih]

theorem headers_tablesOfLines (p : Nat) (lines : List (List Char)) :
    (tablesOfLines p lines).map (fun t => (t.page, t.header)) =
      (lines.filter isHeaderLine).map (fun l => (p, l)) := by
  induction lines with
  | nil => rfl
  | cons l rest ih =>
    by_cases h : isHeaderLine l = true
    · simp [tablesOfLines, h, List.filter_cons, ih]
    · simp [tablesOfLines, h, List.filter_cons, ih]

theorem tablesOfLines_sound {p : Nat} {t : CandidateTable} :
    ∀ {lines : List (List Char)}, t ∈ tablesOfLines p lines →
      t.page = p ∧ isHeaderLine t.header = true ∧
        ∃ i, lines[i]? = some t.header ∧ t.rows = collectRows (lines.drop (i + 1)) := by
  intro lines
  induction lines with
  | nil => intro h; simp [tablesOfLines] at h
  | cons l rest ih =>
    intro h
    by_cases hl : isHeaderLine l = true
    · simp only [tablesOfLines, hl, if_pos, List.mem_cons] at h
      rcases h with h | h
      · subst h
        refine ⟨rfl, hl, 0, ?_, ?_⟩
        · simp
        · simp
      · rcases ih h with ⟨hp, hh, i, hidx, hrows⟩
        exact ⟨hp, hh, i + 1, by simpa using hidx, by simpa using hrows⟩
    · simp only [tablesOfLines, hl, if_neg, Bool.false_eq_true, not_false_iff] at h
      rcases ih h with ⟨hp, hh, i, hidx, hrows⟩
      exact ⟨hp, hh, i + 1, by simpa using hidx, by simpa using hrows⟩

theorem mem_extract_sound {doc : List (List Char)} {t : CandidateTable}
    (h : t ∈ extract_tables_from_pdf doc) :
    ∃ pageText, doc[t.page - 1]? = some pageText ∧
      isHeaderLine t.header = true ∧
      ∃ i, (splitLines pageText)[i]? = some t.header ∧
        t.rows = collectRows ((splitLines pageText).drop (i + 1)) := by
  simp only [extract_tables_from_pdf, List.mem_flatten, List.mem_map] at h
  rcases h with ⟨ts, ⟨pg, hpg, hts⟩, hmem⟩
  subst hts
  rcases tablesOfLines_sound hmem with ⟨hp, hh, i, hidx, hrows⟩
  refine ⟨pg.2, ?_, hh, i, hidx, hrows⟩
  have hget := List.mem_enum_iff_getElem?.mp hpg
  have : t.page - 1 = pg.1 := by omega
  rw [this]
  exact hget

theorem extract_headers_eq (doc : List (List Char)) :
    (extract_tables_from_pdf doc).map (fun t => (t.page, t.header)) =
      (doc.enum.map
        (fun pg => ((splitLines pg.2).filter isHeaderLine).map (fun l => (pg.1 + 1, l)))).flatten := by
  unfold extract_tables_from_pdf
  rw [List.map_flatten, List.map_map]
  congr 1
  apply List.map_congr_left
  intro pg _
  exact headers_tablesOfLines (pg.1 + 1) (splitLines pg.2)

theorem takeoffOfTables_eq (ts : List CandidateTable) :
    takeoffOfTables ts = (ts.filter headerIsDoor).map parse_door_schedule := by
  induction ts with
  | nil => rfl
  | cons t rest ih =>
    by_cases h : headerIsDoor t = true
    · simp [takeoffOfTables, h, List.filter_cons, ih]
    · simp [takeoffOfTables, h, List.filter_cons, ih]

theorem mem_sizes_matches {t : CandidateTable} {p : List Char}
    (h : p ∈ (parse_door_schedule t).sizes) :
    (matchSize1 p || matchSize2 p) = true := by
  rw [parse_sizes_eq, List.mem_flatten] at h
  rcases h with ⟨ps, hps, hp⟩
  rw [List.mem_map] at hps
  rcases hps with ⟨row, _, hrow⟩
  subst hrow
  rw [rowSizes, sizeTokens_eq_filter] at hp
  exact (List.mem_filter.mp hp).2

theorem tablesOfLines_nil_of_no_header {p : Nat} {lines : List (List Char)}
    (h : ∀ l ∈ lines, isHeaderLine l = false) : tablesOfLines p lines = [] := by
  induction lines with
  | nil => rfl
  | cons l rest ih =>
    have hl := h l (by simp)
    simp only [tablesOfLines, hl, Bool.false_eq_true, if_neg, not_false_iff]
    exact ih (fun x hx => h x (by simp [hx]))

/-- The count rule as the spec's invariant words it: the value of the first
token, scanning rows in order and tokens in order, that is digit-only; 0 when
there is none. -/
def specFirstMatchCount (rows : List (List Char)) : Nat :=
  match firstDigitToken ((rows.map (fun r => reSplitWs (pyStrip r))).flatten) with
  | some p => digitsToNat p
  | none => 0

/-! ## Concrete example inputs -/

/-- The token `3'0"x7'0"`, straight quotes. -/
def tokA : List Char := ['3', sq, '0', dq, 'x', '7', sq, '0', dq]

/-- The token `10'0"x7'0"`: two-digit feet field, straight quotes. -/
def tokTenA : List Char := ['1', '0', sq, '0', dq, 'x', '7', sq, '0', dq]

/-- The token `10’0”x7’0”`: two-digit feet field, typographic quotes. -/
def tokTenT : List Char := ['1', '0', rq, '0', rdq, 'x', '7', rq, '0', rdq]

/-- The token `3'0X7'0`: capital separator, omitted inch marks. -/
def tokCapX : List Char := ['3', sq, '0', 'X', '7', sq, '0']

/-- The token `3'0×7'0`: multiplication-sign separator, omitted inch marks. -/
def tokMulX : List Char := ['3', sq, '0', xmul, '7', sq, '0']

/-- The token `3'0x7'0`: lowercase separator, omitted inch marks. -/
def tokNoInch : List Char := ['3', sq, '0', 'x', '7', sq, '0']

/-- The row `2 HM-1 3'0"x7'0"`, fields separated by single spaces. -/
def rowSingleA : List Char := '2' :: ' ' :: ("HM-1".toList ++ ' ' :: tokA)

/-- The row `HM-1 2 3'0"x7'0" 4`, fields separated by single spaces. -/
def rowSingleB : List Char := "HM-1".toList ++ ' ' :: '2' :: ' ' :: (tokA ++ [' ', '4'])

/-- The row `2  HM-1  3'0"x7'0"`, fields separated by two spaces. -/
def rowDoubleA : List Char := '2' :: ' ' :: ' ' :: ("HM-1".toList ++ ' ' :: ' ' :: tokA)

/-- The row `HM-1  2  3'0"x7'0"  4`, fields separated by two spaces. -/
def rowDoubleB : List Char :=
  "HM-1".toList ++ ' ' :: ' ' :: '2' :: ' ' :: ' ' :: (tokA ++ [' ', ' ', '4'])

/-- The row `HM-1  3'0"x7'0"  Hollow Metal`, fields separated by two spaces. -/
def rowSize : List Char :=
  "HM-1".toList ++ ' ' :: ' ' :: (tokA ++ ' ' :: ' ' :: "Hollow Metal".toList)

/-- A row whose only size-like token is `10'0"x7'0"`. -/
def rowTen : List Char := tokTenA ++ ' ' :: ' ' :: "HM".toList

/-- A door-schedule header line. -/
def hdrDoor : List Char := "Door Schedule".toList

/-- A two-row table whose rows each start with a digit-only token. -/
def exTableC1 : CandidateTable := ⟨1, hdrDoor, ["2  A".toList, "3  B".toList]⟩

/-- A one-page document: a door header followed by two rows, the first of
which itself contains the header token `Qty`. -/
def pageC5 : List Char :=
  "Door Schedule".toList ++ '\n' :: "Qty 4".toList ++ '\n' :: "3 X".toList

/-- The first table extracted from `pageC5`. -/
def tC5a : CandidateTable := ⟨1, "Door Schedule".toList, ["Qty 4".toList, "3 X".toList]⟩

/-- The nested table extracted from `pageC5`, headed at its second line. -/
def tC5b : CandidateTable := ⟨1, "Qty 4".toList, ["3 X".toList]⟩

/-- A page whose header is followed by a good row, a blank line, and another
good row. -/
def pageC4 : List Char :=
  "Door Schedule".toList ++ '\n' :: "A B".toList ++ '\n' :: '\n' :: "C D".toList

/-- A page ending right after one collected row. -/
def pageC10a : List Char := "Door Schedule".toList ++ '\n' :: "2  A".toList

/-- A continuation page that starts with non-blank, multi-token lines and
contains no header token. -/
def pageC10b : List Char := "B C".toList ++ '\n' :: "D E".toList

/-! ## Claims -/

/-- C1, counterexample: on a table whose rows are `2  A` and `3  B`, the first
digit-only token scanning rows and tokens in order is `2`, yet
`parse_door_schedule` returns count 5: every row's first digit token
contributes, not only the first in the table. -/
theorem C1_counterexample :
    specFirstMatchCount exTableC1.rows = 2 ∧
      (parse_door_schedule exTableC1).count = 5 ∧
      (parse_door_schedule exTableC1).count ≠ specFirstMatchCount exTableC1.rows := by
  refine ⟨by decide, by decide, by decide⟩

/-- C1, amended: the count of `parse_door_schedule` is the sum, over the
table's rows, of the value of each row's first digit-only token (the inner
`break` stops after one hit per row, not per table); when no row yields a
digit-only token the count stays 0. -/
theorem C1_count_policy (t : CandidateTable) :
    (parse_door_schedule t).count = (t.rows.map rowCount).sum ∧
      ((∀ row ∈ t.rows, firstDigitToken (reSplitWs (pyStrip row)) = none) →
        (parse_door_schedule t).count = 0) := by
  refine ⟨parse_count_eq t, fun h => ?_⟩
  rw [parse_count_eq]
  apply List.sum_eq_zero
  intro x hx
  rw [List.mem_map] at hx
  rcases hx with ⟨row, hrow, hx⟩
  subst hx
  rw [rowCount, h row hrow]

/-- Witness for C1: on a table with rows `2  A`, `3  B` the count is the sum
of the per-row first matches, and on a table whose single row `A  B` has no
digit-only token the count is 0. -/
theorem C1_count_policy_witness :
    (parse_door_schedule exTableC1).count = (exTableC1.rows.map rowCount).sum ∧
      (parse_door_schedule ⟨2, hdrDoor, ["A  B".toList]⟩).count = 0 :=
  ⟨(C1_count_policy exTableC1).1,
    (C1_count_policy ⟨2, hdrDoor, ["A  B".toList]⟩).2 (by decide)⟩

/-- C2, counterexample: in the rows `2 HM-1 3'0"x7'0"` and
`HM-1 2 3'0"x7'0" 4` the fields are separated by single spaces, which the
split pattern `\s{2,}|\t+` does not split on; each row is one token, which is
not digit-only, so each row adds 0 to the count, not 2. -/
theorem C2_counterexample :
    (parse_door_schedule ⟨1, hdrDoor, [rowSingleA]⟩).count = 0 ∧
      (parse_door_schedule ⟨1, hdrDoor, [rowSingleB]⟩).count = 0 := by
  refine ⟨by decide, by decide⟩

/-- C2, amended: with the fields separated by two spaces, the row
`2  HM-1  3'0"x7'0"` adds exactly 2 to the count, and the row
`HM-1  2  3'0"x7'0"  4` adds exactly 2 (only the first digit-only token
counts; the trailing `4` is ignored). -/
theorem C2_first_match_rows :
    (parse_door_schedule ⟨1, hdrDoor, [rowDoubleA]⟩).count = 2 ∧
      (parse_door_schedule ⟨1, hdrDoor, [rowDoubleB]⟩).count = 2 := by
  refine ⟨by decide, by decide⟩

/-- C3: for every table, the count of `parse_door_schedule` equals the sum
over its rows of the value of the first token of the row consisting solely of
decimal digits, a row contributing 0 (silently, no failure is possible) when
it has no such token; later digit-only tokens of a row never contribute. -/
theorem C3_count_row_sum (t : CandidateTable) :
    (parse_door_schedule t).count =
      (t.rows.map (fun row =>
        match firstDigitToken (reSplitWs (pyStrip row)) with
        | some p => digitsToNat p
        | none => 0)).sum :=
  parse_count_eq t

/-- C6: the sizes of `parse_door_schedule` are exactly, in order and with
duplicates kept, the row tokens matching either size pattern, row by row; in
particular the row `HM-1  3'0"x7'0"  Hollow Metal` yields a sizes list
containing `3'0"x7'0"`. -/
theorem C6_sizes (t : CandidateTable) :
    (parse_door_schedule t).sizes =
        (t.rows.map (fun row =>
          (reSplitWs (pyStrip row)).filter
            (fun p => matchSize1 p || matchSize2 p))).flatten ∧
      tokA ∈ (parse_door_schedule ⟨1, hdrDoor, [rowSize]⟩).sizes := by
  constructor
  · rw [parse_sizes_eq]
    congr 1
    apply List.map_congr_left
    intro row _
    exact sizeTokens_eq_filter (reSplitWs (pyStrip row))
  · decide

/-- C9: the two size patterns differ beyond the quote glyphs: the ASCII
pattern accepts the two-digit feet token `10'0"x7'0"` (appended to sizes on a
concrete row) while the typographic pattern rejects its curly-quote
counterpart `10’0”x7’0”` (never appended, for any table); conversely the
second pattern accepts the separators `X` and `×` and omitted inch marks,
all of which the first pattern rejects. -/
theorem C9_pattern_asymmetry (t : CandidateTable) :
    (parse_door_schedule ⟨1, hdrDoor, [rowTen]⟩).sizes = [tokTenA] ∧
      (parse_door_schedule t).sizes.count tokTenT = 0 ∧
      matchSize1 tokTenA = true ∧ matchSize2 tokTenA = false ∧
      matchSize1 tokTenT = false ∧ matchSize2 tokTenT = false ∧
      matchSize2 tokCapX = true ∧ matchSize1 tokCapX = false ∧
      matchSize2 tokMulX = true ∧ matchSize1 tokMulX = false ∧
      matchSize2 tokNoInch = true ∧ matchSize1 tokNoInch = false := by
  refine ⟨by decide, ?_, by decide, by decide, by decide, by decide, by decide,
    by decide, by decide, by decide, by decide, by decide⟩
  rw [List.count_eq_zero]
  intro h
  have hm := mem_sizes_matches h
  exact absurd hm (by decide)

/-- The table extracted from `pageC4`. -/
def tC4 : CandidateTable := ⟨1, "Door Schedule".toList, ["A B".toList]⟩

/-- The table extracted from the two-page document `[pageC10a, pageC10b]`. -/
def tC10 : CandidateTable := ⟨1, "Door Schedule".toList, ["2  A".toList]⟩

/-- C4: every extracted table's rows are exactly the consecutive lines after
its header line on its page, taken while non-blank after stripping and
holding at least two whitespace-separated tokens, stopping without consuming
at the first violating line; the header line itself (at its index) is not
among the rows.  In particular on the page with lines
`Door Schedule`, `A B`, blank, `C D`, collection stops at the blank line and
`C D` is excluded. -/
theorem C4_row_collection :
    (∀ (doc : List (List Char)) (t : CandidateTable), t ∈ extract_tables_from_pdf doc →
      ∃ pageText i, doc[t.page - 1]? = some pageText ∧
        (splitLines pageText)[i]? = some t.header ∧
        t.rows = ((splitLines pageText).drop (i + 1)).takeWhile goodRow) ∧
    extract_tables_from_pdf [pageC4] = [tC4] := by
  constructor
  · intro doc t h
    rcases mem_extract_sound h with ⟨pageText, hdoc, _, i, hidx, hrows⟩
    exact ⟨pageText, i, hdoc, hidx, by rw [hrows, collectRows_eq_takeWhile]⟩
  · decide

/-- Witness for C4: the table of `pageC4` is extracted, and its rows are the
good lines after its header. -/
theorem C4_row_collection_witness :
    tC4 ∈ extract_tables_from_pdf [pageC4] ∧
      ∃ pageText i, [pageC4][tC4.page - 1]? = some pageText ∧
        (splitLines pageText)[i]? = some tC4.header ∧
        tC4.rows = ((splitLines pageText).drop (i + 1)).takeWhile goodRow :=
  ⟨by decide, C4_row_collection.1 [pageC4] tC4 (by decide)⟩

/-- C5: projected to (page, header) pairs, the extracted tables are exactly
the lines containing a header token case-insensitively, in page order and
line order; a document with no matching line yields the empty sequence; and a
header match inside an earlier table's rows starts its own (nested) table, as
on `pageC5` where the second table's header is a row of the first. -/
theorem C5_header_scan :
    (∀ doc : List (List Char),
      (extract_tables_from_pdf doc).map (fun t => (t.page, t.header)) =
        (doc.enum.map (fun pg =>
          ((splitLines pg.2).filter isHeaderLine).map (fun l => (pg.1 + 1, l)))).flatten) ∧
    (∀ doc : List (List Char),
      (∀ pg ∈ doc, ∀ line ∈ splitLines pg, isHeaderLine line = false) →
        extract_tables_from_pdf doc = []) ∧
    (extract_tables_from_pdf [pageC5] = [tC5a, tC5b] ∧ tC5b.header ∈ tC5a.rows) := by
  refine ⟨extract_headers_eq, ?_, by decide, by decide⟩
  intro doc h
  unfold extract_tables_from_pdf
  rw [List.flatten_eq_nil_iff]
  intro ts hts
  rw [List.mem_map] at hts
  rcases hts with ⟨pg, hpg, hts⟩
  subst hts
  apply tablesOfLines_nil_of_no_header
  intro l hl
  have hget := List.mem_enum_iff_getElem?.mp hpg
  exact h pg.2 (List.getElem?_mem hget) l hl

/-- Witness for C5: a document whose single page `B C`, `D E` has no header
token yields no tables. -/
theorem C5_header_scan_witness :
    (∀ pg ∈ [pageC10b], ∀ line ∈ splitLines pg, isHeaderLine line = false) ∧
      extract_tables_from_pdf [pageC10b] = [] :=
  ⟨by decide, C5_header_scan.2.1 [pageC10b] (by decide)⟩

/-- C7: `extract_structured_takeoff` returns, in table order, exactly one
result per extracted table whose header contains `door` case-insensitively
(tables without it produce nothing), and every parse carries scope `Doors`
and the table's recorded page number. -/
theorem C7_door_results :
    (∀ doc : List (List Char),
      extract_structured_takeoff doc =
        ((extract_tables_from_pdf doc).filter
          (fun t => containsSub "door".toList (toLowerStr t.header))).map
          parse_door_schedule) ∧
    (∀ t : CandidateTable, (parse_door_schedule t).scope = "Doors".toList ∧
      (parse_door_schedule t).source_page = t.page) := by
  constructor
  · intro doc
    rw [extract_structured_takeoff, takeoffOfTables_eq]
    rfl
  · intro t
    exact ⟨rfl, rfl⟩

/-- C10: every extracted table lives on a single page: its header and all of
its rows are lines of the page it records.  On the two-page document
`pageC10a`, `pageC10b`, row collection for the table headed on page 1 stops
at the page boundary even though page 2 starts with non-blank multi-token
lines: those lines appear in no table at all (they contain no header token). -/
theorem C10_single_page :
    (∀ (doc : List (List Char)) (t : CandidateTable), t ∈ extract_tables_from_pdf doc →
      ∃ pageText, doc[t.page - 1]? = some pageText ∧
        t.header ∈ splitLines pageText ∧ ∀ r ∈ t.rows, r ∈ splitLines pageText) ∧
    extract_tables_from_pdf [pageC10a, pageC10b] = [tC10] := by
  constructor
  · intro doc t h
    rcases mem_extract_sound h with ⟨pageText, hdoc, _, i, hidx, hrows⟩
    refine ⟨pageText, hdoc, List.getElem?_mem hidx, ?_⟩
    intro r hr
    rw [hrows, collectRows_eq_takeWhile] at hr
    have h1 := List.takeWhile_sublist (l := (splitLines pageText).drop (i + 1)) goodRow
    have h2 := List.drop_sublist (i + 1) (splitLines pageText)
    exact (h1.trans h2).subset hr
  · decide

/-- Witness for C10: the table of the two-page document is on page 1 and all
its rows are lines of page 1. -/
theorem C10_single_page_witness :
    tC10 ∈ extract_tables_from_pdf [pageC10a, pageC10b] ∧
      ∃ pageText, [pageC10a, pageC10b][tC10.page - 1]? = some pageText ∧
        tC10.header ∈ splitLines pageText ∧ ∀ r ∈ tC10.rows, r ∈ splitLines pageText :=
  ⟨by decide, C10_single_page.1 [pageC10a, pageC10b] tC10 (by decide)⟩

/-- C8: for every catalog and every text (the empty text included), the
spec-modelled keyword classifier produces exactly one record per catalog
category, in catalog order, whose `matched` holds exactly when some keyword
of the category is a substring of the lowercased text. -/
theorem C8_classifier (catalog : List (List Char × List (List Char)))
    (text : List Char) :
    (classifyScopes catalog text).length = catalog.length ∧
      ∀ (i : Nat) (cat : List Char × List (List Char)), catalog[i]? = some cat →
        ∃ r : ScopeMatch, (classifyScopes catalog text)[i]? = some r ∧
          r.title = cat.1 ∧ r.keywords = cat.2 ∧
          (r.matched = true ↔ ∃ kw ∈ cat.2, containsSub kw (toLowerStr text) = true) := by
  constructor
  · simp [classifyScopes]
  · intro i cat hcat
    refine ⟨⟨cat.1, cat.2.any (fun kw => containsSub kw (toLowerStr text)), cat.2⟩,
      ?_, rfl, rfl, ?_⟩
    · rw [classifyScopes, List.getElem?_map, hcat]
      rfl
    · exact List.any_eq_true

/-- A one-category catalog for the classifier witness. -/
def catalogEx : List (List Char × List (List Char)) :=
  [("doors".toList, ["door".toList])]

/-- A text mentioning a door in capitals. -/
def textEx : List Char := "Install DOOR frames".toList

/-- Witness for C8: on a one-category catalog the classifier yields one
record, titled like the category, matched exactly when a keyword occurs in
the lowercased text. -/
theorem C8_classifier_witness :
    (classifyScopes catalogEx textEx).length = catalogEx.length ∧
      ∃ r : ScopeMatch, (classifyScopes catalogEx textEx)[0]? = some r ∧
        r.title = ("doors".toList, ["door".toList]).1 ∧
        r.keywords = ("doors".toList, ["door".toList]).2 ∧
        (r.matched = true ↔ ∃ kw ∈ ("doors".toList, ["door".toList]).2,
          containsSub kw (toLowerStr textEx) = true) :=
  ⟨(C8_classifier catalogEx textEx).1,
    (C8_classifier catalogEx textEx).2 0 ("doors".toList, ["door".toList]) (by decide)⟩

end PdfParser
